import Mathlib

/-!
Verification of the roulette betting engine in `roulette.py`.

The embedding is shallow: Python floats are modelled as rationals (`ℚ`),
Python strings as `String`, the pocket→color dictionary as a function
`ℕ → Option String`, and the fallible `resolve_bet` (which can raise
`ValueError`) as a function into `Except`.  The interactive session loop
of `main` is modelled as a fold over a list of already-collected round
inputs, and `prompt_float` as a fold over a list of parse results.
-/

namespace Roulette

/-- `ROULETTE_COLORS`: the static European single-zero pocket→color table,
transcribed entry by entry from the dictionary in `roulette.py`.
Dictionary lookup on a missing key raises, hence `Option`. -/
def ROULETTE_COLORS : ℕ → Option String
  | 0 => some "green"
  | 1 => some "red"
  | 2 => some "black"
  | 3 => some "red"
  | 4 => some "black"
  | 5 => some "red"
  | 6 => some "black"
  | 7 => some "red"
  | 8 => some "black"
  | 9 => some "red"
  | 10 => some "black"
  | 11 => some "black"
  | 12 => some "red"
  | 13 => some "black"
  | 14 => some "red"
  | 15 => some "black"
  | 16 => some "red"
  | 17 => some "black"
  | 18 => some "red"
  | 19 => some "red"
  | 20 => some "black"
  | 21 => some "red"
  | 22 => some "black"
  | 23 => some "red"
  | 24 => some "black"
  | 25 => some "red"
  | 26 => some "black"
  | 27 => some "red"
  | 28 => some "black"
  | 29 => some "black"
  | 30 => some "red"
  | 31 => some "black"
  | 32 => some "red"
  | 33 => some "black"
  | 34 => some "red"
  | 35 => some "black"
  | 36 => some "red"
  | _ => none

/-- Errors `resolve_bet` can raise: the `ValueError` from the final
`raise ValueError(f"Unknown bet type ...")`, and the `ValueError` that
`int(bet_value)` raises on an unparsable string. -/
inductive RouletteError where
  | unknownBetType (t : String)
  | intParseError (s : String)
  deriving DecidableEq

/-- Accumulate a nonempty run of decimal digits into a natural number;
`none` on a non-digit character. -/
def digitsToNat (acc : ℕ) : List Char → Option ℕ
  | [] => some acc
  | c :: cs => if c.isDigit then digitsToNat (acc * 10 + (c.toNat - '0'.toNat)) cs else none

/-- Python's `int(s)` on an optionally-negated decimal string (the shapes
that can reach `resolve_bet`; Python's `int` additionally strips
whitespace and underscores, which no caller produces here).  `none`
models the `ValueError` on an unparsable string. -/
def pyInt (s : String) : Option ℤ :=
  match s.data with
  | [] => none
  | '-' :: c :: cs => (digitsToNat 0 (c :: cs)).map fun n => -(n : ℤ)
  | c :: cs => (digitsToNat 0 (c :: cs)).map fun n => (n : ℤ)

/-- `resolve_bet(bet_type, bet_value, bet_amount, outcome_value, outcome_color)`
from `roulette.py`, branch by branch.  `int(bet_value)` is modelled by
`pyInt`. -/
def resolve_bet (bet_type bet_value : String) (bet_amount : ℚ)
    (outcome_value : ℕ) (outcome_color : String) : Except RouletteError ℚ :=
  if bet_type = "number" then
    match pyInt bet_value with
    | some n => if (outcome_value : ℤ) = n then .ok (bet_amount * 35) else .ok (-bet_amount)
    | none => .error (.intParseError bet_value)
  else if bet_type = "color" then
    if outcome_color = bet_value then .ok bet_amount else .ok (-bet_amount)
  else if bet_type = "parity" then
    if outcome_value = 0 then .ok (-bet_amount)
    else
      let parity := if outcome_value % 2 = 0 then "even" else "odd"
      if parity = bet_value then .ok bet_amount else .ok (-bet_amount)
  else .error (.unknownBetType bet_type)

/-- Round-half-to-even of a rational to the nearest integer, the rounding
mode of Python's built-in `round`. -/
def roundHalfEven (x : ℚ) : ℤ :=
  if x - ⌊x⌋ < 1/2 then ⌊x⌋
  else if 1/2 < x - ⌊x⌋ then ⌊x⌋ + 1
  else if ⌊x⌋ % 2 = 0 then ⌊x⌋ else ⌊x⌋ + 1

/-- `round(value, 2)`: round to two decimal places, half to even. -/
def round2 (x : ℚ) : ℚ := (roundHalfEven (x * 100) : ℚ) / 100

/-- `prompt_float(prompt, minimum, maximum)` from `roulette.py`, with the
stream of user inputs made explicit: each element is the result of
`float(input(prompt))` (`none` = `ValueError`, re-prompt).  An in-range
value is returned rounded to two decimals; out-of-range values re-prompt.
`none` overall means the input stream was exhausted. -/
def prompt_float (minimum maximum : ℚ) : List (Option ℚ) → Option ℚ
  | [] => none
  | none :: rest => prompt_float minimum maximum rest
  | some v :: rest =>
      if v < minimum ∨ maximum < v then prompt_float minimum maximum rest
      else some (round2 v)

/-- The data one iteration of the loop in `main` consumes: the accepted
bet amount, the validated bet kind and value, and the spin outcome. -/
structure Round where
  amount : ℚ
  bet_type : String
  bet_value : String
  outcome_value : ℕ
  outcome_color : String

/-- The profit of a round, when `resolve_bet` returns normally. -/
def roundProfit (r : Round) : Option ℚ :=
  match resolve_bet r.bet_type r.bet_value r.amount r.outcome_value r.outcome_color with
  | .ok p => some p
  | .error _ => none

/-- `balance += profit` iterated over a list of rounds (the body of the
`while` loop in `main`); `none` if some round's `resolve_bet` raised. -/
def playRounds : ℚ → List Round → Option ℚ
  | bal, [] => some bal
  | bal, r :: rs =>
      match roundProfit r with
      | some p => playRounds (bal + p) rs
      | none => none

/-- The `while balance > 0` loop of `main` with its exits: entering with
balance ≤ 0 or an accepted bet amount of 0 ends the session and reports
the current balance.  `none` means the supplied rounds ran out with the
loop still live, or `resolve_bet` raised. -/
def runSession : ℚ → List Round → Option ℚ
  | bal, [] => if bal ≤ 0 then some bal else none
  | bal, r :: rs =>
      if bal ≤ 0 then some bal
      else if r.amount = 0 then some bal
      else
        match roundProfit r with
        | some p => runSession (bal + p) rs
        | none => none

/-- A bet kind/value pair as `main`'s input validation produces it:
`number` with the decimal string of an integer in [0,36], `color` with
`red`/`black`, or `parity` with `even`/`odd`. -/
def ValidBetSpec (t v : String) : Prop :=
  (t = "number" ∧ ∃ n : ℕ, n ≤ 36 ∧ v = toString n) ∨
  (t = "color" ∧ (v = "red" ∨ v = "black")) ∨
  (t = "parity" ∧ (v = "even" ∨ v = "odd"))

/-- A spin outcome as `spin_wheel` produces it: a pocket in [0,36] with
its table color. -/
def ValidOutcome (r : Round) : Prop :=
  r.outcome_value ≤ 36 ∧ ROULETTE_COLORS r.outcome_value = some r.outcome_color

/-- A sequence of rounds each of which the session loop could accept from
the given entry balance: positive amount bounded by the balance at that
round's entry, validated bet, spin-produced outcome. -/
def ValidSeq : ℚ → List Round → Prop
  | _, [] => True
  | bal, r :: rs =>
      0 < r.amount ∧ r.amount ≤ bal ∧ ValidBetSpec r.bet_type r.bet_value ∧
      ValidOutcome r ∧ ValidSeq (bal + (roundProfit r).getD 0) rs

/-- Sum of the profits of a list of rounds. -/
def profitSum (rounds : List Round) : ℚ :=
  (rounds.map fun r => (roundProfit r).getD 0).sum

/-- The red pockets of the standard European single-zero layout, as the
spec enumerates them (spec-side definition, to be compared with the
table transcribed from the source). -/
def specRedNumbers : List ℕ :=
  [1, 3, 5, 7, 9, 12, 14, 16, 18, 19, 21, 23, 25, 27, 30, 32, 34, 36]

/-! ### Helper lemmas about the resolver -/

lemma pyInt_toString (n : ℕ) (hn : n ≤ 36) : pyInt (toString n) = some (n : ℤ) := by
  revert n
  decide

lemma resolve_bet_number (n ov : ℕ) (hn : n ≤ 36) (a : ℚ) (oc : String) :
    resolve_bet "number" (toString n) a ov oc =
      .ok (if ov = n then a * 35 else -a) := by
  simp only [resolve_bet, if_pos rfl, pyInt_toString n hn]
  by_cases h : ov = n
  · simp [h]
  · simp [h, fun hc : (ov : ℤ) = (n : ℤ) => h (by exact_mod_cast hc)]

lemma resolve_bet_color (v : String) (a : ℚ) (ov : ℕ) (oc : String) :
    resolve_bet "color" v a ov oc = .ok (if oc = v then a else -a) := by
  by_cases h : oc = v <;> simp [resolve_bet, h]

lemma resolve_bet_parity (v : String) (a : ℚ) (ov : ℕ) (oc : String) :
    resolve_bet "parity" v a ov oc =
      .ok (if ov = 0 then -a
           else if (if ov % 2 = 0 then "even" else "odd") = v then a else -a) := by
  by_cases h : ov = 0
  · simp [resolve_bet, h]
  · by_cases hp : (if ov % 2 = 0 then "even" else "odd") = v <;>
      simp [resolve_bet, h, hp]

lemma resolve_bet_ok_of_valid (t v : String) (a : ℚ) (ov : ℕ) (oc : String)
    (hb : ValidBetSpec t v) :
    ∃ p, resolve_bet t v a ov oc = .ok p ∧
      (p = a ∨ p = a * 35 ∨ p = -a) ∧ (t ≠ "number" → p = a ∨ p = -a) := by
  rcases hb with ⟨ht, n, hn, hv⟩ | ⟨ht, hv⟩ | ⟨ht, hv⟩
  · subst ht; subst hv
    rw [resolve_bet_number n ov hn a oc]
    by_cases h : ov = n <;> simp [h]
  · subst ht
    rw [resolve_bet_color v a ov oc]
    by_cases h : oc = v <;> simp [h]
  · subst ht
    rw [resolve_bet_parity v a ov oc]
    by_cases h0 : ov = 0
    · simp [h0]
    · by_cases h : (if ov % 2 = 0 then "even" else "odd") = v <;> simp [h0, h]

/-! ### Claims about `resolve_bet` -/

/-- C2: a number bet on n ∈ [0,36] with amount a pays profit 35·a when the
outcome value equals n and −a otherwise, for every outcome. -/
theorem number_bet_payout (a : ℚ) (n ov : ℕ) (oc : String)
    (ha : 0 < a) (hn : n ≤ 36) :
    resolve_bet "number" (toString n) a ov oc =
      .ok (if ov = n then 35 * a else -a) := by
  rw [resolve_bet_number n ov hn a oc, mul_comm a 35]

/-- Witness for C2 at the spec's scenarios A and B: a number bet on 17
against outcome (17, black) pays 350 on a 10 stake; a number bet on 5
against the same outcome pays −10. -/
theorem number_bet_payout_scenarios :
    resolve_bet "number" (toString (17 : ℕ)) 10 17 "black" = .ok 350 ∧
    resolve_bet "number" (toString (5 : ℕ)) 10 17 "black" = .ok (-10) := by
  constructor
  · have h := number_bet_payout 10 17 17 "black" (by norm_num) (by norm_num)
    rw [h]; norm_num
  · have h := number_bet_payout 10 5 17 "black" (by norm_num) (by norm_num)
    rw [h]; norm_num

/-- C3: a color bet on c ∈ {red, black} with amount a pays +a when the
outcome color equals c and −a otherwise; a green outcome always loses. -/
theorem color_bet_payout (a : ℚ) (c : String) (ov : ℕ) (oc : String)
    (ha : 0 < a) (hc : c = "red" ∨ c = "black") :
    resolve_bet "color" c a ov oc = .ok (if oc = c then a else -a) ∧
    (oc = "green" → resolve_bet "color" c a ov oc = .ok (-a)) := by
  refine ⟨resolve_bet_color c a ov oc, fun hg => ?_⟩
  have hne : ¬(oc = c) := by subst hg; rcases hc with h | h <;> subst h <;> decide
  rw [resolve_bet_color c a ov oc, if_neg hne]

/-- Witness for C3 at the spec's scenario C, plus the green-loses case:
a red bet of 20 wins 20 against (19, red) and loses 20 against (0, green). -/
theorem color_bet_payout_scenarios :
    resolve_bet "color" "red" 20 19 "red" = .ok 20 ∧
    resolve_bet "color" "red" 20 0 "green" = .ok (-20) := by
  constructor
  · have h := (color_bet_payout 20 "red" 19 "red" (by norm_num) (Or.inl rfl)).1
    rw [h, if_pos rfl]
  · exact (color_bet_payout 20 "red" 0 "green" (by norm_num) (Or.inl rfl)).2 rfl

/-- C4: a parity bet on p ∈ {even, odd} with amount a pays −a on outcome
value 0 regardless of p, +a on a nonzero outcome whose parity matches p,
and −a on a nonzero outcome whose parity differs from p. -/
theorem parity_bet_payout (a : ℚ) (p : String) (ov : ℕ) (oc : String)
    (ha : 0 < a) (hp : p = "even" ∨ p = "odd") :
    (ov = 0 → resolve_bet "parity" p a ov oc = .ok (-a)) ∧
    (ov ≠ 0 → ((Even ov ∧ p = "even") ∨ (¬Even ov ∧ p = "odd") →
      resolve_bet "parity" p a ov oc = .ok a)) ∧
    (ov ≠ 0 → ((Even ov ∧ p = "odd") ∨ (¬Even ov ∧ p = "even") →
      resolve_bet "parity" p a ov oc = .ok (-a))) := by
  refine ⟨fun h0 => ?_, fun h0 hm => ?_, fun h0 hm => ?_⟩
  · rw [resolve_bet_parity, if_pos h0]
  · rcases hm with ⟨he, hpv⟩ | ⟨ho, hpv⟩
    · have h2 : ov % 2 = 0 := Nat.even_iff.mp he
      rw [resolve_bet_parity, if_neg h0, if_pos (by rw [if_pos h2, hpv])]
    · have h2 : ¬ov % 2 = 0 := fun hc => ho (Nat.even_iff.mpr hc)
      rw [resolve_bet_parity, if_neg h0, if_pos (by rw [if_neg h2, hpv])]
  · rcases hm with ⟨he, hpv⟩ | ⟨ho, hpv⟩
    · have h2 : ov % 2 = 0 := Nat.even_iff.mp he
      rw [resolve_bet_parity, if_neg h0, if_neg (by rw [if_pos h2, hpv]; decide)]
    · have h2 : ¬ov % 2 = 0 := fun hc => ho (Nat.even_iff.mpr hc)
      rw [resolve_bet_parity, if_neg h0, if_neg (by rw [if_neg h2, hpv]; decide)]

/-- Witness for C4 at the spec's scenario D, plus a nonzero odd win:
an even bet of 15 loses against (0, green); an odd bet of 15 wins
against (17, black). -/
theorem parity_bet_payout_scenarios :
    resolve_bet "parity" "even" 15 0 "green" = .ok (-15) ∧
    resolve_bet "parity" "odd" 15 17 "black" = .ok 15 := by
  constructor
  · exact (parity_bet_payout 15 "even" 0 "green" (by norm_num) (Or.inl rfl)).1 rfl
  · exact (parity_bet_payout 15 "odd" 17 "black" (by norm_num) (Or.inr rfl)).2.1
      (by norm_num) (Or.inr ⟨by decide, rfl⟩)

/-- C5: the static pocket→color table maps every pocket in [0,36] to
exactly one of green/red/black; 0 is the only green pocket, the red
pockets are exactly the spec's eighteen, and black is the rest. -/
theorem roulette_colors_layout : ∀ v : ℕ, v ≤ 36 →
    (ROULETTE_COLORS v = some "green" ∨ ROULETTE_COLORS v = some "red" ∨
      ROULETTE_COLORS v = some "black") ∧
    (ROULETTE_COLORS v = some "green" ↔ v = 0) ∧
    (ROULETTE_COLORS v = some "red" ↔ v ∈ specRedNumbers) ∧
    (ROULETTE_COLORS v = some "black" ↔ (v ≠ 0 ∧ v ∉ specRedNumbers)) := by
  decide

/-- Witness for C5 at pockets 0 and 19. -/
theorem roulette_colors_layout_examples :
    (ROULETTE_COLORS 0 = some "green" ↔ (0 : ℕ) = 0) ∧
    (ROULETTE_COLORS 19 = some "red" ↔ (19 : ℕ) ∈ specRedNumbers) :=
  ⟨(roulette_colors_layout 0 (by norm_num)).2.1,
   (roulette_colors_layout 19 (by norm_num)).2.2.1⟩

/-- C6: on a valid bet with amount a > 0, `resolve_bet` returns normally
with a profit in {+a, +35·a, −a}, and +35·a only for a number bet. -/
theorem resolve_bet_payout_range (t v : String) (a : ℚ) (ov : ℕ) (oc : String)
    (ha : 0 < a) (hb : ValidBetSpec t v) :
    ∃ p, resolve_bet t v a ov oc = .ok p ∧
      (p = a ∨ p = 35 * a ∨ p = -a) ∧ (p = 35 * a → t = "number") := by
  obtain ⟨p, hp, hcases, hnn⟩ := resolve_bet_ok_of_valid t v a ov oc hb
  refine ⟨p, hp, ?_, ?_⟩
  · rcases hcases with h | h | h
    · exact Or.inl h
    · exact Or.inr (Or.inl (by rw [h, mul_comm]))
    · exact Or.inr (Or.inr h)
  · intro h35
    by_contra hne
    rcases hnn hne with h | h
    · rw [h] at h35; linarith
    · rw [h] at h35; linarith

/-- Witness for C6 on a winning black color bet of 25. -/
theorem resolve_bet_payout_range_example :
    ∃ p, resolve_bet "color" "black" 25 2 "black" = .ok p ∧
      (p = 25 ∨ p = 35 * 25 ∨ p = -25) ∧ (p = 35 * 25 → "color" = "number") :=
  resolve_bet_payout_range "color" "black" 25 2 "black" (by norm_num)
    (Or.inr (Or.inl ⟨rfl, Or.inr rfl⟩))

/-- C7: `resolve_bet` raises the unknown-bet-type `ValueError` exactly
when the bet kind is none of number/color/parity, and returns a profit
normally on each recognized kind with a valid value. -/
theorem resolve_bet_unknown_kind (t v : String) (a : ℚ) (ov : ℕ) (oc : String) :
    (resolve_bet t v a ov oc = .error (.unknownBetType t) ↔
      ¬(t = "number" ∨ t = "color" ∨ t = "parity")) ∧
    (ValidBetSpec t v → ∃ p, resolve_bet t v a ov oc = .ok p) := by
  constructor
  · constructor
    · intro herr hk
      rcases hk with h | h | h <;> subst h
      · rcases hpi : pyInt v with _ | n
        · simp [resolve_bet, hpi] at herr
        · by_cases h2 : (ov : ℤ) = n <;> simp [resolve_bet, hpi, h2] at herr
      · by_cases h2 : oc = v <;> simp [resolve_bet, h2] at herr
      · rw [resolve_bet_parity] at herr; simp at herr
    · intro hnk
      have h1 : ¬(t = "number") := fun h => hnk (Or.inl h)
      have h2 : ¬(t = "color") := fun h => hnk (Or.inr (Or.inl h))
      have h3 : ¬(t = "parity") := fun h => hnk (Or.inr (Or.inr h))
      simp [resolve_bet, h1, h2, h3]
  · intro hb
    obtain ⟨p, hp, -, -⟩ := resolve_bet_ok_of_valid t v a ov oc hb
    exact ⟨p, hp⟩

/-- Witness for C7: an unrecognized kind "split" raises, and a valid
parity bet resolves normally. -/
theorem resolve_bet_unknown_kind_example :
    (resolve_bet "split" "17" 5 3 "red" = .error (.unknownBetType "split") ↔
      ¬("split" = "number" ∨ "split" = "color" ∨ "split" = "parity")) ∧
    (∃ p, resolve_bet "parity" "even" 5 3 "red" = .ok p) :=
  ⟨(resolve_bet_unknown_kind "split" "17" 5 3 "red").1,
   (resolve_bet_unknown_kind "parity" "even" 5 3 "red").2
     (Or.inr (Or.inr ⟨rfl, Or.inl rfl⟩))⟩

/-- C9: `resolve_bet` is deterministic — two calls with identical
arguments return the identical profit (in the embedding it is a total
function of its five arguments, with no state and no I/O). -/
theorem resolve_bet_deterministic (t t' v v' : String) (a a' : ℚ) (ov ov' : ℕ)
    (oc oc' : String) (ht : t = t') (hv : v = v') (ha : a = a') (ho : ov = ov')
    (hc : oc = oc') :
    resolve_bet t v a ov oc = resolve_bet t' v' a' ov' oc' := by
  subst ht; subst hv; subst ha; subst ho; subst hc; rfl

/-- Witness for C9 at a concrete repeated call. -/
theorem resolve_bet_deterministic_example :
    resolve_bet "number" (toString (7 : ℕ)) 3 7 "red" =
      resolve_bet "number" (toString (7 : ℕ)) 3 7 "red" :=
  resolve_bet_deterministic _ _ _ _ _ _ _ _ _ _ rfl rfl rfl rfl rfl

/-! ### Rounding and `prompt_float` -/

lemma roundHalfEven_sub_abs (x : ℚ) : |(roundHalfEven x : ℚ) - x| ≤ 1/2 := by
  have h0 : (⌊x⌋ : ℚ) ≤ x := Int.floor_le x
  have h1 : x < ⌊x⌋ + 1 := Int.lt_floor_add_one x
  unfold roundHalfEven
  split_ifs with hf hg he <;> rw [abs_le] <;> push_cast <;> constructor <;> linarith

lemma roundHalfEven_small (y : ℚ) (h0 : 0 ≤ y) (h1 : y < 1/2) :
    roundHalfEven y = 0 := by
  have hf : ⌊y⌋ = 0 := by
    rw [Int.floor_eq_zero_iff]
    exact ⟨h0, by linarith⟩
  unfold roundHalfEven
  rw [hf]
  norm_num
  intro h
  linarith

lemma round2_sub_abs (x : ℚ) : |round2 x - x| ≤ 1/200 := by
  have h := roundHalfEven_sub_abs (x * 100)
  have hrw : round2 x - x = ((roundHalfEven (x * 100) : ℚ) - x * 100) / 100 := by
    unfold round2; ring
  rw [hrw, abs_div]
  rw [abs_of_pos (by norm_num : (0:ℚ) < 100)]
  rw [div_le_iff₀ (by norm_num : (0:ℚ) < 100)]
  linarith

lemma round2_small (x : ℚ) (h0 : 0 < x) (h1 : x < 1/200) : round2 x = 0 := by
  unfold round2
  rw [roundHalfEven_small (x * 100) (by linarith) (by linarith)]
  norm_num

/-- C10: `prompt_float` range-checks the raw parsed value and returns it
rounded to two decimals; the rounded value differs from the raw input by
at most 0.005, and any accepted value strictly between 0 and 0.005
rounds to 0 — which the session loop then treats as a cash-out, never
staking it. -/
theorem prompt_float_rounds_accepted (minimum maximum v : ℚ)
    (rest : List (Option ℚ)) (h1 : ¬v < minimum) (h2 : ¬maximum < v) :
    prompt_float minimum maximum (some v :: rest) = some (round2 v) ∧
    |round2 v - v| ≤ 1/200 ∧
    (0 < v → v < 1/200 → round2 v = 0) ∧
    (∀ (bal : ℚ) (r : Round) (rs : List Round), 0 < bal → 0 < v → v < 1/200 →
      r.amount = round2 v → runSession bal (r :: rs) = some bal) := by
  refine ⟨?_, round2_sub_abs v, fun ha hb => round2_small v ha hb, ?_⟩
  · rw [prompt_float, if_neg (by push_neg; exact ⟨le_of_not_lt h1, le_of_not_lt h2⟩)]
  · intro bal r rs hbal ha hb hr
    have hz : r.amount = 0 := by rw [hr, round2_small v ha hb]
    rw [runSession, if_neg (not_le.mpr hbal), if_pos hz]

/-- Witness for C10: input 0.004 at the bet prompt with balance 100 is
accepted, rounds to 0, and cashes the session out at its balance. -/
theorem prompt_float_rounds_accepted_example :
    prompt_float 0 100 (some (1/250) :: []) = some (round2 (1/250)) ∧
    |round2 (1/250) - 1/250| ≤ 1/200 ∧
    (0 < (1/250 : ℚ) → (1/250 : ℚ) < 1/200 → round2 (1/250) = 0) ∧
    (∀ (bal : ℚ) (r : Round) (rs : List Round), 0 < bal → 0 < (1/250 : ℚ) →
      (1/250 : ℚ) < 1/200 → r.amount = round2 (1/250) →
      runSession bal (r :: rs) = some bal) :=
  prompt_float_rounds_accepted 0 100 (1/250) []
    (by norm_num) (by norm_num)

/-! ### The session loop -/

lemma roundProfit_of_valid (r : Round)
    (hb : ValidBetSpec r.bet_type r.bet_value) (ha : 0 < r.amount) :
    ∃ p, roundProfit r = some p ∧ (roundProfit r).getD 0 = p ∧ -r.amount ≤ p := by
  obtain ⟨p, hp, hcases, -⟩ :=
    resolve_bet_ok_of_valid r.bet_type r.bet_value r.amount
      r.outcome_value r.outcome_color hb
  have hrp : roundProfit r = some p := by rw [roundProfit, hp]
  refine ⟨p, hrp, by rw [hrp]; rfl, ?_⟩
  rcases hcases with h | h | h <;> rw [h] <;> linarith

lemma playRounds_valid (rounds : List Round) :
    ∀ bal : ℚ, 0 ≤ bal → ValidSeq bal rounds →
    rounds.mapM roundProfit = some (rounds.map fun r => (roundProfit r).getD 0) ∧
    ∀ k, playRounds bal (rounds.take k) = some (bal + profitSum (rounds.take k)) ∧
      0 ≤ bal + profitSum (rounds.take k) := by
  induction rounds with
  | nil =>
      intro bal hbal _
      refine ⟨rfl, fun k => ?_⟩
      simp [playRounds, profitSum]
      exact hbal
  | cons r rs ih =>
      intro bal hbal hv
      obtain ⟨hapos, hale, hbspec, hout, hrest⟩ := hv
      obtain ⟨p, hp, hgetd, hpl⟩ := roundProfit_of_valid r hbspec hapos
      have hbal' : 0 ≤ bal + p := by linarith
      have hrest' : ValidSeq (bal + p) rs := by rwa [hgetd] at hrest
      obtain ⟨hmap, hk⟩ := ih (bal + p) hbal' hrest'
      constructor
      · rw [List.mapM_cons, hp, hmap]
        simp [hgetd]
      · intro k
        cases k with
        | zero =>
            simp [playRounds, profitSum]
            exact hbal
        | succ k =>
            obtain ⟨hpk, hnk⟩ := hk k
            rw [List.take_succ_cons]
            have hplay : playRounds bal (r :: rs.take k) =
                playRounds (bal + p) (rs.take k) := by
              rw [playRounds, hp]
            have hsum : profitSum (r :: rs.take k) = p + profitSum (rs.take k) := by
              rw [profitSum, List.map_cons, List.sum_cons, hgetd, profitSum]
            rw [hplay, hsum, hpk]
            constructor
            · rw [add_assoc]
            · linarith

/-- C1: starting from the 100.0 stake, over any sequence of rounds whose
accepted amounts satisfy 0 < a ≤ entry balance, every round's
`resolve_bet` returns a profit, the balance after the sequence equals
100 plus the sum of those profits, and the balance is ≥ 0 after every
round (every prefix). -/
theorem session_balance_invariant (rounds : List Round)
    (h : ValidSeq 100 rounds) :
    rounds.mapM roundProfit = some (rounds.map fun r => (roundProfit r).getD 0) ∧
    playRounds 100 rounds = some (100 + profitSum rounds) ∧
    ∀ k, playRounds 100 (rounds.take k) = some (100 + profitSum (rounds.take k)) ∧
      0 ≤ 100 + profitSum (rounds.take k) := by
  obtain ⟨hmap, hk⟩ := playRounds_valid rounds 100 (by norm_num) h
  refine ⟨hmap, ?_, hk⟩
  have h1 := (hk rounds.length).1
  rwa [List.take_length] at h1

/-- Witness for C1: one round — number bet on 17, stake 10, outcome
(17, black) — takes the balance from 100 to 450 = 100 + 350. -/
theorem session_balance_invariant_example :
    playRounds 100 [Round.mk 10 "number" (toString (17 : ℕ)) 17 "black"] =
      some 450 := by
  have hval : ValidSeq 100 [Round.mk 10 "number" (toString (17 : ℕ)) 17 "black"] :=
    ⟨by norm_num, by norm_num, Or.inl ⟨rfl, 17, by norm_num, rfl⟩,
      ⟨by norm_num, by decide⟩, trivial⟩
  have h := (session_balance_invariant
    [Round.mk 10 "number" (toString (17 : ℕ)) 17 "black"] hval).2.1
  have hr := resolve_bet_number 17 17 (by norm_num) 10 "black"
  norm_num at hr
  have hprofit : profitSum [Round.mk 10 "number" (toString (17 : ℕ)) 17 "black"] =
      350 := by
    simp [profitSum, roundProfit, hr]
  rw [hprofit] at h
  norm_num at h
  exact h

/-- C8: at loop entry with positive balance, an accepted bet amount of 0
ends the session at once with the balance unchanged — independently of
the round's other fields and of any further rounds — and a session at
balance 0 terminates without consuming any further round. -/
theorem session_cashout_and_exhaustion (bal : ℚ) (r : Round) (rs : List Round)
    (hbal : 0 < bal) (hr : r.amount = 0) :
    runSession bal (r :: rs) = some bal ∧
    ∀ rounds : List Round, runSession 0 rounds = some 0 := by
  constructor
  · rw [runSession, if_neg (not_le.mpr hbal), if_pos hr]
  · intro rounds
    cases rounds with
    | nil => rw [runSession, if_pos le_rfl]
    | cons r' rs' => rw [runSession, if_pos le_rfl]

/-- Witness for C8: the spec's scenario F at balance 100 — a 0 bet
cashes out at 100; a session at balance 0 reports 0. -/
theorem session_cashout_example :
    runSession 100 [Round.mk 0 "color" "red" 19 "red"] = some 100 ∧
    ∀ rounds : List Round, runSession 0 rounds = some 0 :=
  session_cashout_and_exhaustion 100 (Round.mk 0 "color" "red" 19 "red") []
    (by norm_num) rfl

end Roulette
